import Mathlib

/-!
Verification development for the process-supervision daemon (src/src/daemon.ts).

The daemon tracks child processes in a registry keyed by process id
(the field processes of the Daemon class), runs a command chain
(Daemon.start), kills every tracked process on reload or shutdown
(Daemon.killAll), monitors the main process for exit (Daemon.monitor),
and exposes its lifecycle as an async generator of events
(Daemon.iterate and Symbol.asyncIterator).

The embedding below is a shallow one: the registry is the list of
tracked process ids (object keys are unique, so the list is used with
key semantics), JavaScript run-to-completion scheduling makes each
synchronous segment of code one atomic step, and the platform
capabilities (spawning, process status, Deno.kill) enter as explicit
parameters or as Except-valued environment models.
-/

namespace Denon

/-- ScriptOptions from src/src/scripts.ts as consumed by the daemon:
the only field the daemon core ever reads is watch; the remaining
pass-through execution options are irrelevant to the supervision logic
and are omitted. An absent watch field in TypeScript is falsy, so the
default is false. -/
structure ScriptOptions where
  watch : Bool := false
deriving Repr, DecidableEq

/-- A command of the chain produced by the external command builder
(denon.runner.build): its command line and its ScriptOptions. The spawn
capability (command.exe) is modelled by the pid oracle passed to
startGo. -/
structure Command where
  cmd : List String
  options : ScriptOptions
deriving Repr, DecidableEq

/-- Modelled from the spec: the watcher (src/src/watcher.ts is not part
of the sources) delivers change records carrying a classification; the
daemon only evaluates the boolean expression
type.includes "modify" on a record (line 159 of daemon.ts), so a
record is modelled as its list of classification tags and includes as
list membership. -/
structure ChangeRecord where
  type : List String
deriving Repr, DecidableEq

/-- One delivery of the watcher feed: an ordered batch of change
records. -/
abbrev ChangeBatch := List ChangeRecord

/-- The filter applied to a batch at line 159 of daemon.ts:
watchE.some (record.type.includes "modify"). -/
def qualifies (b : ChangeBatch) : Bool :=
  b.any (fun r => r.type.contains "modify")

/-- The lifecycle events emitted by the daemon (DenonEvent of
src/denon.ts, as produced by Daemon.iterate). -/
inductive DenonEvent where
  | start
  | reload (change : ChangeBatch)
  | exit
deriving Repr, DecidableEq

/-! ## The process registry and killAll (daemon.ts lines 73 to 88) -/

/-- One step of the synchronous body of killAll, in source order:
line 76 snapshots the registry into pcopy, line 77 assigns the empty
mapping to the registry, and the loop of lines 78 to 87 issues one
termination request per snapshotted handle (close on windows, a kill
signal elsewhere). -/
inductive KAStep where
  | snapshot (pcopy : List Nat)
  | setRegistry (r : List Nat)
  | close (pid : Nat)
  | killSig (pid : Nat)
deriving Repr, DecidableEq

/-- The exact sequence of steps killAll performs on a registry holding
the ids procs, in the order the statements appear in the source. -/
def killAllTrace (os : String) (procs : List Nat) : List KAStep :=
  let pcopy := procs
  .snapshot pcopy :: .setRegistry ([] : List Nat) ::
    pcopy.map (fun pid => if os == "windows" then .close pid else .killSig pid)

/-- Effect of one killAll step on the registry: only the assignment of
line 77 mutates it; snapshotting and termination requests do not. -/
def applyKA (r : List Nat) : KAStep → List Nat
  | .snapshot _ => r
  | .setRegistry r2 => r2
  | .close _ => r
  | .killSig _ => r

/-- whether a step is a termination request -/
def KAStep.isTerm : KAStep → Bool
  | .close _ => true
  | .killSig _ => true
  | _ => false

/-- the process id a termination request acts on -/
def termPids (t : List KAStep) : List Nat :=
  t.filterMap fun s =>
    match s with
    | .close pid => some pid
    | .killSig pid => some pid
    | _ => none

/-- The registry values seen along a killAll run: position i holds the
registry contents just before step i executes, and the final position
holds the registry after killAll returns. -/
def kaStates (os : String) (procs : List Nat) : List (List Nat) :=
  (killAllTrace os procs).scanl applyKA procs

/-- killAll as a plain state transformer for the interleaving analysis:
the registry after the call and the ids termination was requested for,
in order. -/
def killAllRun (os : String) (procs : List Nat) : List Nat × List Nat :=
  ((killAllTrace os procs).foldl applyKA procs, termPids (killAllTrace os procs))

/-- An environment model of Deno.kill on a non-windows host: the call
resolves for a live process id and raises NotFound for an id that no
longer exists (a child that already exited and was reaped). The set of
live ids is the parameter alive. -/
def denoKill (alive : List Nat) (pid : Nat) : Except String Unit :=
  if pid ∈ alive then .ok () else .error "NotFound"

/-- killAll (lines 73 to 88) run against the fallible platform kill:
the loop body contains no try or catch, so the first error raised by a
termination request propagates out of killAll. On windows the request
is close, which releases the handle and does not throw. Returns the
registry after the call when no request throws. -/
def killAllE (os : String) (alive : List Nat) (procs : List Nat) :
    Except String (List Nat) := do
  let pcopy := procs
  let newReg : List Nat := []
  for pid in pcopy do
    if os == "windows" then
      pure ()
    else
      denoKill alive pid
  return newReg

/-! ## The exit monitor (daemon.ts lines 90 to 131) -/

/-- The classification the monitor arrives at for a tracked process:
either it exited on its own (its id was still in the registry, lines
104 to 127) or it was killed externally (its id was gone, lines 128 to
130). -/
inductive MClass where
  | exitedOwn
  | killedExternally
deriving Repr, DecidableEq

/-- Outcome of one monitor invocation: the registry it leaves behind,
the classification it reached, and the log messages it wrote, in
order. -/
structure MonitorResult where
  procs : List Nat
  classification : MClass
  logs : List String
deriving Repr, DecidableEq

/-- The four status log messages of lines 112 to 126, selected by the
success flag of the retrieved status and by options.watch. -/
def classLog (success watch : Bool) : String :=
  if success then
    if watch then "clean exit - waiting for changes before restart"
    else "clean exit - denon is exiting ..."
  else
    if watch then "app crashed - waiting for file changes before starting ..."
    else "app crashed - denon is exiting ..."

/-- The synchronous continuation of monitor that runs once the await of
process.status has settled (lines 103 to 130): look the id up in the
registry; if present, delete it and, when a status value is available,
write the classification message; if absent, only log that the process
was killed. s is none when status retrieval failed (the catch of lines
100 to 102 left the local s undefined). -/
def monitorCont (pid : Nat) (s : Option Bool) (watch : Bool)
    (procs : List Nat) : MonitorResult :=
  if pid ∈ procs then
    { procs := procs.erase pid
      classification := .exitedOwn
      logs := [s!"M: process with pid {pid} exited on its own"] ++
        (match s with
         | some success => [classLog success watch]
         | none => []) }
  else
    { procs := procs
      classification := .killedExternally
      logs := [s!"M: process with pid {pid} was killed"] }

/-- The whole monitor body (lines 90 to 131): log the monitoring start,
await the status (its outcome is the statusResult parameter), convert a
raised error into s = undefined via the try block of lines 97 to 102
while logging either success or failure of the retrieval, then run the
continuation. The function is total: a failed status retrieval is
absorbed, never propagated. -/
def monitorRun (pid : Nat) (statusResult : Except String Bool)
    (watch : Bool) (procs : List Nat) : MonitorResult :=
  let preLogs := [s!"M: monitoring status of process with pid {pid}"]
  let sAndLog : Option Bool × List String :=
    match statusResult with
    | .ok b => (some b, [s!"M: got status of process with pid {pid}"])
    | .error _ => (none, [s!"M: error getting status of process with pid {pid}"])
  let r := monitorCont pid sAndLog.1 watch procs
  { r with logs := preLogs ++ sAndLog.2 ++ r.logs }

/-! ## The command chain executor (daemon.ts lines 49 to 71) -/

/-- The observable actions of one Daemon.start run, in execution
order: spawned i pid is the call command.exe of line 57 for the command
at index i (the pid it produced), awaited pid is the await of
process.status at line 67 for a non-final command, registered pid is
the registry insertion of line 62, monitored pid is the fire-and-forget
monitor launch of line 63. -/
inductive StartEv where
  | spawned (i pid : Nat)
  | awaited (pid : Nat)
  | registered (pid : Nat)
  | monitored (pid : Nat)
deriving Repr, DecidableEq

/-- Registry insertion (line 62): assignment at key pid. An existing
key keeps the registry membership unchanged, a fresh key is appended. -/
def regInsert (procs : List Nat) (pid : Nat) : List Nat :=
  if pid ∈ procs then procs else procs ++ [pid]

/-- The loop of Daemon.start (lines 55 to 69) from index i on: a final
command is spawned, registered and monitored and its options are
returned without awaiting it (lines 60 to 64); any other command is
spawned and its status awaited, the status value being discarded
(lines 65 to 68). An exhausted loop returns the empty options literal
of line 70. pidOf maps a command index to the pid its spawn produced
and statusOf maps a pid to the success flag of its awaited status;
statusOf is an argument only to record that the source receives the
status and never consults it. -/
def startGo (pidOf : Nat → Nat) (statusOf : Nat → Bool) :
    Nat → List Nat → List Command → List StartEv × List Nat × ScriptOptions
  | _, procs, [] => ([], procs, {})
  | i, procs, [c] =>
      ([.spawned i (pidOf i), .registered (pidOf i), .monitored (pidOf i)],
       regInsert procs (pidOf i), c.options)
  | i, procs, _c :: c2 :: rest =>
      let r := startGo pidOf statusOf (i + 1) procs (c2 :: rest)
      (.spawned i (pidOf i) :: .awaited (pidOf i) :: r.1, r.2)

/-- Daemon.start on the full chain, from the registry procs. -/
def startRun (pidOf : Nat → Nat) (statusOf : Nat → Bool) (procs : List Nat)
    (cmds : List Command) : List StartEv × List Nat × ScriptOptions :=
  startGo pidOf statusOf 0 procs cmds

/-- Effect of one start action on the registry: only the registration
of line 62 mutates it. -/
def applyStartEv (r : List Nat) : StartEv → List Nat
  | .registered pid => regInsert r pid
  | _ => r

/-- The sequential prefix of a start trace: for m non-final commands
beginning at index i, each is spawned and then awaited before the next
index is touched. -/
def seqShape (pidOf : Nat → Nat) : Nat → Nat → List StartEv
  | _, 0 => []
  | i, m + 1 =>
      .spawned i (pidOf i) :: .awaited (pidOf i) :: seqShape pidOf (i + 1) m

/-- the command indices of the spawn actions of a trace, in order -/
def spawnIdxs (t : List StartEv) : List Nat :=
  t.filterMap fun e =>
    match e with
    | .spawned i _ => some i
    | _ => none

/-- the pids of the await actions of a trace, in order -/
def awaitedPids (t : List StartEv) : List Nat :=
  t.filterMap fun e =>
    match e with
    | .awaited pid => some pid
    | _ => none

/-! ## The event stream (daemon.ts lines 151 to 174) -/

/-- The observable steps of one run of the async generator
Daemon.iterate: ev is a yield of a DenonEvent, startCall k is the k-th
invocation of this.start (k = 0 at line 155, k greater than zero from
inside reload at line 46), onExitInstalled is the fire-and-forget
signal listener installation of line 156, consumed b is one pull of a
batch from the watcher feed by the for-await loop of line 158, and
reloadRun k is the reload procedure of lines 30 to 47 (killAll followed
by the k-th start call, whose returned options are discarded). -/
inductive ItEv where
  | ev (e : DenonEvent)
  | startCall (k : Nat)
  | onExitInstalled
  | consumed (b : ChangeBatch)
  | reloadRun (k : Nat)
deriving Repr, DecidableEq

/-- The watch loop of lines 158 to 169, having already performed k
start calls: pull each batch from the feed in order; a batch with a
record whose classification includes modify yields the reload event
carrying the batch and then runs the reload procedure; any other batch
is skipped. -/
def watchLoop (k : Nat) : List ChangeBatch → List ItEv
  | [] => []
  | b :: rest =>
      if qualifies b then
        .consumed b :: .ev (.reload b) :: .reloadRun (k + 1) ::
          watchLoop (k + 1) rest
      else
        .consumed b :: watchLoop k rest

/-- One full run of Daemon.iterate over a finite feed: yield start,
invoke start (call number 0) and keep its options, install the signal
listener, enter the watch loop only when options.watch is true, and
yield exit when the loop is skipped or the feed ends. startOpts k is
the ScriptOptions value returned by the k-th invocation of this.start;
only the options of call 0 are ever consulted (line 157), every later
return value is discarded at line 46. -/
def iterateRun (startOpts : Nat → ScriptOptions) (feed : List ChangeBatch) :
    List ItEv :=
  .ev .start :: .startCall 0 :: .onExitInstalled ::
    ((if (startOpts 0).watch then watchLoop 0 feed else []) ++ [.ev .exit])

/-- the DenonEvents yielded along a trace, in order -/
def eventsOf (t : List ItEv) : List DenonEvent :=
  t.filterMap fun i =>
    match i with
    | .ev e => some e
    | _ => none

/-- the batches pulled from the feed along a trace, in order -/
def consumedOf (t : List ItEv) : List ChangeBatch :=
  t.filterMap fun i =>
    match i with
    | .consumed b => some b
    | _ => none

/-- the payloads of the reload events yielded along a trace, in order -/
def reloadEventsOf (t : List ItEv) : List ChangeBatch :=
  t.filterMap fun i =>
    match i with
    | .ev (.reload b) => some b
    | _ => none

/-! ## The async generator object (daemon.ts lines 151 and 176 to 178) -/

/-- The inputs a Daemon closes over that determine its event sequence:
the options each start call returns and the watcher feed. -/
structure DaemonInput where
  startOpts : Nat → ScriptOptions
  feed : List ChangeBatch

/-- the events one generator instance of this daemon will yield -/
def iterateEvents (d : DaemonInput) : List DenonEvent :=
  eventsOf (iterateRun d.startOpts d.feed)

/-- An async generator instance: the sequence of events it yields and
its mutable position within that sequence. -/
structure Gen where
  pos : Nat
  events : List DenonEvent

/-- Calling the async generator method iterate (line 151) builds a
fresh generator instance positioned before its first event; the body
does not run until the instance is first advanced. -/
def mkIterate (d : DaemonInput) : Gen :=
  { pos := 0, events := iterateEvents d }

/-- Symbol.asyncIterator (lines 176 to 178) returns this.iterate():
a fresh generator instance on every call. The daemon object itself is
returned unchanged, since the method touches no field. -/
def symbolAsyncIterator (d : DaemonInput) : DaemonInput × Gen :=
  (d, mkIterate d)

/-- Advancing a generator instance: produce the event at the current
position and move past it, or report exhaustion and stay put. -/
def Gen.next (g : Gen) : Option DenonEvent × Gen :=
  match g.events[g.pos]? with
  | some e => (some e, { g with pos := g.pos + 1 })
  | none => (none, g)

end Denon

namespace Denon

/-! ## Lemmas about killAll -/

/-- a termination request never mutates the registry -/
theorem applyKA_term (r : List Nat) (os : String) (pid : Nat) :
    applyKA r (if os == "windows" then KAStep.close pid else .killSig pid) = r := by
  cases os == "windows" <;> simp [applyKA]

/-- a termination request acts on the pid it was built from -/
theorem termPid_of_step (os : String) (pid : Nat) :
    termPids [if os == "windows" then KAStep.close pid else .killSig pid] = [pid] := by
  cases os == "windows" <;> simp [termPids]

/-- scanning the termination loop from the empty registry keeps it
empty at every step -/
theorem scanl_term_steps (os : String) (l : List Nat) :
    List.scanl applyKA ([] : List Nat)
      (l.map (fun pid => if os == "windows" then KAStep.close pid else .killSig pid)) =
      List.replicate (l.length + 1) ([] : List Nat) := by
  induction l with
  | nil => simp
  | cons a l ih =>
      rw [List.map_cons, List.scanl_cons, applyKA_term, ih]
      simp [List.replicate_succ]

/-- the registry states of a killAll run: the original registry up to
the clear of line 77, the empty registry from then on -/
theorem kaStates_eq (os : String) (procs : List Nat) :
    kaStates os procs =
      procs :: procs :: List.replicate (procs.length + 1) ([] : List Nat) := by
  rw [kaStates, killAllTrace]
  rw [List.scanl_cons, List.scanl_cons]
  rw [show applyKA procs (KAStep.snapshot procs) = procs from rfl]
  rw [show applyKA procs (KAStep.setRegistry []) = [] from rfl]
  rw [scanl_term_steps]
  simp

/-- the termination requests of a killAll run act on exactly the
snapshotted ids, in registry order -/
theorem termPids_killAllTrace (os : String) (procs : List Nat) :
    termPids (killAllTrace os procs) = procs := by
  rw [killAllTrace, termPids]
  induction procs with
  | nil => rfl
  | cons a l ih =>
      rw [List.map_cons, List.filterMap_cons, List.filterMap_cons, List.filterMap_cons] at *
      cases h : os == "windows" <;> simp [h] at ih ⊢ <;> exact ih

/-- the registry left behind by a killAll run is empty -/
theorem killAll_final_empty (os : String) (procs : List Nat) :
    (killAllTrace os procs).foldl applyKA procs = [] := by
  have h1 : ∀ l : List Nat,
      (l.map (fun pid => if os == "windows" then KAStep.close pid else .killSig pid)).foldl
        applyKA ([] : List Nat) = [] := by
    intro l
    induction l with
    | nil => rfl
    | cons a l ih => rw [List.map_cons, List.foldl_cons, applyKA_term]; exact ih
  rw [killAllTrace, List.foldl_cons, List.foldl_cons]
  exact h1 procs

/-- Claim C1: for every state of the process registry, after a killAll
call returns the registry is empty; killAll snapshots the registry
(line 76) and replaces it with the empty mapping (line 77) before any
termination request is issued, so with the registry keys unique no
handle is acted on twice: every termination request executes with the
registry already empty, and the requests act on exactly the
snapshotted ids, each once. -/
theorem C1_killAll_clears_registry (os : String) (procs : List Nat)
    (hnd : procs.Nodup) :
    (killAllTrace os procs).foldl applyKA procs = [] ∧
    kaStates os procs =
      procs :: procs :: List.replicate (procs.length + 1) [] ∧
    (∀ (i : Nat) (s : KAStep), (killAllTrace os procs)[i]? = some s →
      s.isTerm = true → (kaStates os procs)[i]? = some []) ∧
    termPids (killAllTrace os procs) = procs ∧
    (termPids (killAllTrace os procs)).Nodup := by
  refine ⟨killAll_final_empty os procs, kaStates_eq os procs, ?_, ?_, ?_⟩
  · intro i s hs hterm
    rw [kaStates_eq]
    rcases i with _ | (_ | n)
    · rw [killAllTrace] at hs
      simp only [List.getElem?_cons_zero, Option.some.injEq] at hs
      subst hs
      simp [KAStep.isTerm] at hterm
    · rw [killAllTrace] at hs
      simp only [List.getElem?_cons_succ, List.getElem?_cons_zero,
        Option.some.injEq] at hs
      subst hs
      simp [KAStep.isTerm] at hterm
    · rw [killAllTrace] at hs
      simp only [List.getElem?_cons_succ] at hs
      have hlt : n < procs.length := by
        by_contra hge
        push_neg at hge
        rw [List.getElem?_eq_none (by simpa using hge)] at hs
        exact Option.noConfusion hs
      simp only [List.getElem?_cons_succ]
      rw [List.getElem?_replicate]
      simp [Nat.lt_succ_of_lt hlt]
  · exact termPids_killAllTrace os procs
  · rw [termPids_killAllTrace]; exact hnd

theorem C1_killAll_clears_registry_spot :
    (killAllTrace "linux" [3, 7]).foldl applyKA [3, 7] = [] ∧
    termPids (killAllTrace "linux" [3, 7]) = [3, 7] := by
  have h := C1_killAll_clears_registry "linux" [3, 7] (by decide)
  exact ⟨h.1, h.2.2.2.1⟩

/-- Claim C2: with a tracked process in the registry, its natural exit
and a killAll are two atomic cooperative steps (the monitor
continuation of lines 103 to 130 and the synchronous body of lines 73
to 88); in either interleaving the monitor reaches exactly one of the
two classifications, the pid is removed from the registry exactly
once, and a termination request is issued at most once: if the monitor
continuation runs first it classifies exited on its own, removes the
pid itself and the subsequent killAll issues no request; if killAll
runs first it issues the one request, and the monitor then finds the
pid absent, classifies killed externally and takes no action. The two
classifications are distinct, so the outcome is never both and never
neither. -/
theorem C2_monitor_killAll_race (os : String) (pid : Nat) (s : Option Bool)
    (watch : Bool) :
    ((monitorCont pid s watch [pid]).classification = .exitedOwn ∧
     (monitorCont pid s watch [pid]).procs = [] ∧
     (killAllRun os (monitorCont pid s watch [pid]).procs).2 = [] ∧
     (killAllRun os (monitorCont pid s watch [pid]).procs).1 = []) ∧
    ((killAllRun os [pid]).2 = [pid] ∧
     (monitorCont pid s watch (killAllRun os [pid]).1).classification =
       .killedExternally ∧
     (monitorCont pid s watch (killAllRun os [pid]).1).procs =
       (killAllRun os [pid]).1 ∧
     (killAllRun os [pid]).1 = []) ∧
    MClass.exitedOwn ≠ MClass.killedExternally := by
  refine ⟨⟨?_, ?_, ?_, ?_⟩, ⟨?_, ?_, ?_, ?_⟩, by simp⟩ <;>
    simp [monitorCont, killAllRun, killAll_final_empty, termPids_killAllTrace]

/-! ## Lemmas about the command chain executor -/

/-- closed form of the start loop on a chain split as non-final
commands followed by the final one -/
theorem startGo_closed (pidOf : Nat → Nat) (statusOf : Nat → Bool) :
    ∀ (cmds : List Command) (c : Command) (i : Nat) (procs : List Nat),
    startGo pidOf statusOf i procs (cmds ++ [c]) =
      (seqShape pidOf i cmds.length ++
        [.spawned (i + cmds.length) (pidOf (i + cmds.length)),
         .registered (pidOf (i + cmds.length)),
         .monitored (pidOf (i + cmds.length))],
       regInsert procs (pidOf (i + cmds.length)), c.options) := by
  intro cmds
  induction cmds with
  | nil => intro c i procs; simp [startGo, seqShape]
  | cons a cmds ih =>
      intro c i procs
      rcases hsplit : cmds ++ [c] with _ | ⟨d, ds⟩
      · exact absurd hsplit (by simp)
      · have h1 : startGo pidOf statusOf i procs ((a :: cmds) ++ [c]) =
            (.spawned i (pidOf i) :: .awaited (pidOf i) ::
              (startGo pidOf statusOf (i + 1) procs (cmds ++ [c])).1,
             (startGo pidOf statusOf (i + 1) procs (cmds ++ [c])).2) := by
          rw [List.cons_append, hsplit]
          rw [show startGo pidOf statusOf i procs (a :: d :: ds) =
            (.spawned i (pidOf i) :: .awaited (pidOf i) ::
              (startGo pidOf statusOf (i + 1) procs (d :: ds)).1,
             (startGo pidOf statusOf (i + 1) procs (d :: ds)).2) from rfl]
        rw [h1, ih c (i + 1) procs]
        have hidx : i + 1 + cmds.length = i + (a :: cmds).length := by
          simp; omega
        rw [hidx]
        simp [seqShape]

/-- the spawn actions of the sequential prefix carry the consecutive
command indices -/
theorem spawnIdxs_seqShape (pidOf : Nat → Nat) :
    ∀ (m i : Nat), spawnIdxs (seqShape pidOf i m) = List.range' i m := by
  intro m
  induction m with
  | zero => intro i; rfl
  | succ m ih =>
      intro i
      simp [seqShape, spawnIdxs, List.filterMap_cons, List.range'] at *
      exact ih (i + 1)

/-- the await actions of the sequential prefix act on the pids of the
consecutive commands -/
theorem awaitedPids_seqShape (pidOf : Nat → Nat) :
    ∀ (m i : Nat),
    awaitedPids (seqShape pidOf i m) = (List.range' i m).map pidOf := by
  intro m
  induction m with
  | zero => intro i; rfl
  | succ m ih =>
      intro i
      simp [seqShape, awaitedPids, List.filterMap_cons, List.range'] at *
      exact ih (i + 1)

/-- scanning the sequential prefix from the empty registry keeps it
empty: no action before the final registration mutates the registry -/
theorem scanl_seqShape (pidOf : Nat → Nat) :
    ∀ (m i : Nat) (tail : List StartEv),
    List.scanl applyStartEv ([] : List Nat) (seqShape pidOf i m ++ tail) =
      List.replicate (2 * m) ([] : List Nat) ++
        List.scanl applyStartEv ([] : List Nat) tail := by
  intro m
  induction m with
  | zero => intro i tail; simp [seqShape]
  | succ m ih =>
      intro i tail
      rw [seqShape, List.cons_append, List.cons_append,
        List.scanl_cons, List.scanl_cons]
      rw [show applyStartEv [] (.spawned i (pidOf i)) = [] from rfl]
      rw [show applyStartEv [] (.awaited (pidOf i)) = [] from rfl]
      rw [ih (i + 1) tail]
      have h2 : 2 * (m + 1) = 2 * m + 2 := by omega
      rw [h2]
      simp [List.replicate_succ]

/-- Claim C3: for a chain of N commands with N at least 1, start spawns
the commands strictly in array order; each of the first N minus 1 is
spawned and then awaited before the next index is touched, the awaited
status never being inspected (the run is the same for every status
oracle); the final command is spawned, registered and monitored and its
ScriptOptions are returned with no await action for it; starting from
the empty registry, the registry holds at most one entry at every
point of the run and exactly the pid of the final command at the
end. -/
theorem C3_start_chain (pidOf : Nat → Nat) (statusOf statusOf2 : Nat → Bool)
    (cmds : List Command) (h : cmds ≠ []) :
    startRun pidOf statusOf [] cmds = startRun pidOf statusOf2 [] cmds ∧
    (startRun pidOf statusOf [] cmds).1 =
      seqShape pidOf 0 (cmds.length - 1) ++
        [.spawned (cmds.length - 1) (pidOf (cmds.length - 1)),
         .registered (pidOf (cmds.length - 1)),
         .monitored (pidOf (cmds.length - 1))] ∧
    spawnIdxs (startRun pidOf statusOf [] cmds).1 = List.range cmds.length ∧
    awaitedPids (startRun pidOf statusOf [] cmds).1 =
      (List.range (cmds.length - 1)).map pidOf ∧
    (startRun pidOf statusOf [] cmds).2.1 = [pidOf (cmds.length - 1)] ∧
    (startRun pidOf statusOf [] cmds).2.2 = (cmds.getLast h).options ∧
    (∀ r ∈ List.scanl applyStartEv ([] : List Nat)
        (startRun pidOf statusOf [] cmds).1, r.length ≤ 1) := by
  have hsplit : cmds.dropLast ++ [cmds.getLast h] = cmds :=
    List.dropLast_append_getLast h
  have hlen : cmds.dropLast.length = cmds.length - 1 := List.length_dropLast cmds
  have hpos : 0 < cmds.length := List.length_pos.mpr h
  have key : ∀ st : Nat → Bool, startRun pidOf st [] cmds =
      (seqShape pidOf 0 (cmds.length - 1) ++
        [.spawned (cmds.length - 1) (pidOf (cmds.length - 1)),
         .registered (pidOf (cmds.length - 1)),
         .monitored (pidOf (cmds.length - 1))],
       [pidOf (cmds.length - 1)], (cmds.getLast h).options) := by
    intro st
    rw [startRun]
    conv_lhs => rw [← hsplit]
    rw [startGo_closed, hlen]
    simp [regInsert]
  refine ⟨(key statusOf).trans (key statusOf2).symm, ?_, ?_, ?_, ?_, ?_, ?_⟩
  · rw [key]
  · rw [key]
    rw [show (seqShape pidOf 0 (cmds.length - 1) ++
        [StartEv.spawned (cmds.length - 1) (pidOf (cmds.length - 1)),
         .registered (pidOf (cmds.length - 1)),
         .monitored (pidOf (cmds.length - 1))]) =
      (seqShape pidOf 0 (cmds.length - 1) ++
        [StartEv.spawned (cmds.length - 1) (pidOf (cmds.length - 1))]) ++
        [.registered (pidOf (cmds.length - 1)),
         .monitored (pidOf (cmds.length - 1))] by simp]
    rw [spawnIdxs, List.filterMap_append, List.filterMap_append]
    rw [← spawnIdxs, ← spawnIdxs, ← spawnIdxs, spawnIdxs_seqShape]
    rw [show spawnIdxs [StartEv.spawned (cmds.length - 1)
      (pidOf (cmds.length - 1))] = [cmds.length - 1] from rfl]
    rw [show spawnIdxs [StartEv.registered (pidOf (cmds.length - 1)),
      .monitored (pidOf (cmds.length - 1))] = [] from rfl]
    rw [List.range_eq_range']
    rw [show cmds.length = (cmds.length - 1) + 1 by omega]
    rw [List.range'_1_concat]
    simp
  · rw [key]
    rw [awaitedPids, List.filterMap_append, ← awaitedPids, ← awaitedPids,
      awaitedPids_seqShape]
    rw [show awaitedPids [StartEv.spawned (cmds.length - 1)
        (pidOf (cmds.length - 1)),
      .registered (pidOf (cmds.length - 1)),
      .monitored (pidOf (cmds.length - 1))] = [] from rfl]
    rw [List.range_eq_range']
    simp
  · rw [key]
  · rw [key]
  · intro r hr
    rw [key, scanl_seqShape] at hr
    rcases List.mem_append.mp hr with hrep | htl
    · rw [List.eq_of_mem_replicate hrep]
      simp
    · have : List.scanl applyStartEv ([] : List Nat)
          [StartEv.spawned (cmds.length - 1) (pidOf (cmds.length - 1)),
           .registered (pidOf (cmds.length - 1)),
           .monitored (pidOf (cmds.length - 1))] =
          [[], [], [pidOf (cmds.length - 1)], [pidOf (cmds.length - 1)]] := by
        simp [List.scanl, applyStartEv, regInsert]
      rw [this] at htl
      simp only [List.mem_cons, List.not_mem_nil, or_false] at htl
      rcases htl with h1 | h1 | h1 | h1 <;> subst h1 <;> simp

theorem C3_start_chain_spot :
    (startRun (fun i => i + 10) (fun _ => true) []
      [{ cmd := ["echo", "setup"], options := {} },
       { cmd := ["run", "main"], options := { watch := true } }]).2.1 = [11] ∧
    (startRun (fun i => i + 10) (fun _ => true) []
      [{ cmd := ["echo", "setup"], options := {} },
       { cmd := ["run", "main"], options := { watch := true } }]).2.2 =
      { watch := true } := by
  have h := C3_start_chain (fun i => i + 10) (fun _ => true) (fun _ => false)
    [{ cmd := ["echo", "setup"], options := {} },
     { cmd := ["run", "main"], options := { watch := true } }] (by simp)
  exact ⟨h.2.2.2.2.1, h.2.2.2.2.2.1⟩

/-! ## Lemmas about the event stream -/

@[simp] theorem eventsOf_nil : eventsOf [] = [] := rfl

@[simp] theorem eventsOf_cons_ev (e : DenonEvent) (t : List ItEv) :
    eventsOf (.ev e :: t) = e :: eventsOf t := by simp [eventsOf]

@[simp] theorem eventsOf_cons_startCall (k : Nat) (t : List ItEv) :
    eventsOf (.startCall k :: t) = eventsOf t := by simp [eventsOf]

@[simp] theorem eventsOf_cons_onExit (t : List ItEv) :
    eventsOf (.onExitInstalled :: t) = eventsOf t := by simp [eventsOf]

@[simp] theorem eventsOf_cons_consumed (b : ChangeBatch) (t : List ItEv) :
    eventsOf (.consumed b :: t) = eventsOf t := by simp [eventsOf]

@[simp] theorem eventsOf_cons_reloadRun (k : Nat) (t : List ItEv) :
    eventsOf (.reloadRun k :: t) = eventsOf t := by simp [eventsOf]

@[simp] theorem eventsOf_append (a b : List ItEv) :
    eventsOf (a ++ b) = eventsOf a ++ eventsOf b := by
  simp [eventsOf, List.filterMap_append]

@[simp] theorem consumedOf_nil : consumedOf [] = [] := rfl

@[simp] theorem consumedOf_cons_ev (e : DenonEvent) (t : List ItEv) :
    consumedOf (.ev e :: t) = consumedOf t := by simp [consumedOf]

@[simp] theorem consumedOf_cons_startCall (k : Nat) (t : List ItEv) :
    consumedOf (.startCall k :: t) = consumedOf t := by simp [consumedOf]

@[simp] theorem consumedOf_cons_onExit (t : List ItEv) :
    consumedOf (.onExitInstalled :: t) = consumedOf t := by simp [consumedOf]

@[simp] theorem consumedOf_cons_consumed (b : ChangeBatch) (t : List ItEv) :
    consumedOf (.consumed b :: t) = b :: consumedOf t := by simp [consumedOf]

@[simp] theorem consumedOf_cons_reloadRun (k : Nat) (t : List ItEv) :
    consumedOf (.reloadRun k :: t) = consumedOf t := by simp [consumedOf]

@[simp] theorem consumedOf_append (a b : List ItEv) :
    consumedOf (a ++ b) = consumedOf a ++ consumedOf b := by
  simp [consumedOf, List.filterMap_append]

@[simp] theorem reloadEventsOf_nil : reloadEventsOf [] = [] := rfl

@[simp] theorem reloadEventsOf_cons_ev (e : DenonEvent) (t : List ItEv) :
    reloadEventsOf (.ev e :: t) =
      (match e with | .reload b => [b] | _ => []) ++ reloadEventsOf t := by
  cases e <;> simp [reloadEventsOf]

@[simp] theorem reloadEventsOf_cons_startCall (k : Nat) (t : List ItEv) :
    reloadEventsOf (.startCall k :: t) = reloadEventsOf t := by
  simp [reloadEventsOf]

@[simp] theorem reloadEventsOf_cons_onExit (t : List ItEv) :
    reloadEventsOf (.onExitInstalled :: t) = reloadEventsOf t := by
  simp [reloadEventsOf]

@[simp] theorem reloadEventsOf_cons_consumed (b : ChangeBatch) (t : List ItEv) :
    reloadEventsOf (.consumed b :: t) = reloadEventsOf t := by
  simp [reloadEventsOf]

@[simp] theorem reloadEventsOf_cons_reloadRun (k : Nat) (t : List ItEv) :
    reloadEventsOf (.reloadRun k :: t) = reloadEventsOf t := by
  simp [reloadEventsOf]

@[simp] theorem reloadEventsOf_append (a b : List ItEv) :
    reloadEventsOf (a ++ b) = reloadEventsOf a ++ reloadEventsOf b := by
  simp [reloadEventsOf, List.filterMap_append]

/-- the events yielded inside the watch loop are one reload event per
qualifying batch, in feed order -/
theorem eventsOf_watchLoop : ∀ (feed : List ChangeBatch) (k : Nat),
    eventsOf (watchLoop k feed) = (feed.filter qualifies).map .reload := by
  intro feed
  induction feed with
  | nil => intro k; rfl
  | cons b rest ih =>
      intro k
      cases hq : qualifies b <;> simp [watchLoop, hq, ih, List.filter_cons]

/-- the watch loop pulls every batch of the feed, in order -/
theorem consumedOf_watchLoop : ∀ (feed : List ChangeBatch) (k : Nat),
    consumedOf (watchLoop k feed) = feed := by
  intro feed
  induction feed with
  | nil => intro k; rfl
  | cons b rest ih =>
      intro k
      cases hq : qualifies b <;> simp [watchLoop, hq, ih]

/-- the reload events of the watch loop carry the qualifying batches -/
theorem reloadEventsOf_watchLoop : ∀ (feed : List ChangeBatch) (k : Nat),
    reloadEventsOf (watchLoop k feed) = feed.filter qualifies := by
  intro feed
  induction feed with
  | nil => intro k; rfl
  | cons b rest ih =>
      intro k
      cases hq : qualifies b <;> simp [watchLoop, hq, ih, List.filter_cons]

/-- Claim C4: when the options of the main command have watch false, or
the chain is empty so that start returns the default non-watching
options of line 70, the yielded event sequence is exactly start then
exit and no batch is ever pulled from the change feed. -/
theorem C4_no_watch_start_exit (startOpts : Nat → ScriptOptions)
    (feed : List ChangeBatch) (pidOf : Nat → Nat) (statusOf : Nat → Bool)
    (h : (startOpts 0).watch = false) :
    eventsOf (iterateRun startOpts feed) = [.start, .exit] ∧
    consumedOf (iterateRun startOpts feed) = [] ∧
    (startRun pidOf statusOf [] []).2.2 = { watch := false } := by
  refine ⟨?_, ?_, rfl⟩ <;> simp [iterateRun, h]

theorem C4_no_watch_start_exit_spot :
    eventsOf (iterateRun (fun _ => {})
      [[{ type := ["modify"] }]]) = [.start, .exit] ∧
    consumedOf (iterateRun (fun _ => {})
      [[{ type := ["modify"] }]]) = [] := by
  have h := C4_no_watch_start_exit (fun _ => {})
    [[{ type := ["modify"] }]] id (fun _ => true) (by decide)
  exact ⟨h.1, h.2.1⟩

/-- Claim C5: while watching, a consumed batch with no record
classified modify adds no event and no reload procedure run to the
trace; a batch with at least one such record adds exactly one reload
event carrying that batch, placed before the reload procedure run it
triggers; globally the yielded events are start, one reload event per
qualifying batch in feed order, then exit, and the reload event
payloads are exactly the qualifying batches. -/
theorem C5_filter_law (startOpts : Nat → ScriptOptions)
    (feed : List ChangeBatch) (b : ChangeBatch) (rest : List ChangeBatch)
    (k : Nat) (hw : (startOpts 0).watch = true) :
    (qualifies b = false →
      watchLoop k (b :: rest) = .consumed b :: watchLoop k rest) ∧
    (qualifies b = true →
      watchLoop k (b :: rest) =
        .consumed b :: .ev (.reload b) :: .reloadRun (k + 1) ::
          watchLoop (k + 1) rest) ∧
    eventsOf (iterateRun startOpts feed) =
      .start :: ((feed.filter qualifies).map .reload ++ [.exit]) ∧
    reloadEventsOf (iterateRun startOpts feed) = feed.filter qualifies := by
  refine ⟨?_, ?_, ?_, ?_⟩
  · intro hq; simp [watchLoop, hq]
  · intro hq; simp [watchLoop, hq]
  · simp [iterateRun, hw, eventsOf_watchLoop]
  · simp [iterateRun, hw, reloadEventsOf_watchLoop]

theorem C5_filter_law_spot :
    watchLoop 0 [[{ type := ["access"] }]] =
      [.consumed [{ type := ["access"] }]] ∧
    watchLoop 0 [[{ type := ["modify", "access"] }]] =
      [.consumed [{ type := ["modify", "access"] }],
       .ev (.reload [{ type := ["modify", "access"] }]), .reloadRun 1] ∧
    eventsOf (iterateRun (fun _ => { watch := true })
      [[{ type := ["access"] }], [{ type := ["modify"] }]]) =
      [.start, .reload [{ type := ["modify"] }], .exit] := by
  have h1 := C5_filter_law (fun _ => { watch := true })
    [[{ type := ["access"] }], [{ type := ["modify"] }]]
    [{ type := ["access"] }] [] 0 (by decide)
  have h2 := (C5_filter_law (fun _ => { watch := true })
    [[{ type := ["access"] }], [{ type := ["modify"] }]]
    [{ type := ["modify", "access"] }] [] 0 (by decide)).2.1 (by decide)
  refine ⟨?_, ?_, ?_⟩
  · rw [h1.1 (by decide)]; rfl
  · rw [h2]; rfl
  · rw [h1.2.2.1]; rfl

/-- Claim C10: the options returned by the start calls a reload makes
are discarded at line 46; the decision to keep consuming the change
feed is taken once, at line 157, from the options of the initial start
call, so two runs whose start calls agree on call zero have identical
traces however the later calls differ, and whenever the initial
options have watch true the loop consumes every batch of the feed even
if every rebuilt chain reports watch false. -/
theorem C10_reload_options_discarded (f g : Nat → ScriptOptions)
    (feed : List ChangeBatch) (hfg : f 0 = g 0) :
    iterateRun f feed = iterateRun g feed ∧
    ((f 0).watch = true → consumedOf (iterateRun f feed) = feed ∧
      reloadEventsOf (iterateRun f feed) = feed.filter qualifies) := by
  constructor
  · rw [iterateRun, iterateRun, hfg]
  · intro hw
    constructor
    · simp [iterateRun, hw, consumedOf_watchLoop]
    · simp [iterateRun, hw, reloadEventsOf_watchLoop]

theorem C10_reload_options_discarded_spot :
    iterateRun (fun k => { watch := decide (k = 0) })
        [[{ type := ["modify"] }], [{ type := ["modify"] }]] =
      iterateRun (fun _ => { watch := true })
        [[{ type := ["modify"] }], [{ type := ["modify"] }]] ∧
    consumedOf (iterateRun (fun k => { watch := decide (k = 0) })
        [[{ type := ["modify"] }], [{ type := ["modify"] }]]) =
      [[{ type := ["modify"] }], [{ type := ["modify"] }]] := by
  have h := C10_reload_options_discarded
    (fun k => { watch := decide (k = 0) }) (fun _ => { watch := true })
    [[{ type := ["modify"] }], [{ type := ["modify"] }]] (by simp)
  exact ⟨h.1, (h.2 (by simp)).1⟩

/-! ## C6 to C9: error handling, the monitor cases, the generator -/

/-- Claim C6 states that killAll never throws, in particular not when a
snapshotted process is already dead when its termination is requested.
The loop of lines 78 to 87 issues Deno.kill with no try or catch, so
under the fallible platform model a snapshotted pid whose process no
longer exists makes killAll raise NotFound, violating the claim: the
first conjunct evaluates killAll at the failing input (non-windows
host, registry holding pid 7, process 7 already gone). The remaining
conjuncts record the non-throwing cases: a still-live process, and the
windows branch whose close releases the handle without throwing. -/
theorem C6_killAll_throws_for_dead_pid :
    killAllE "linux" [] [7] = .error "NotFound" ∧
    killAllE "linux" [7] [7] = .ok [] ∧
    killAllE "windows" [] [7] = .ok [] :=
  ⟨rfl, rfl, rfl⟩

/-- Counterexample to claim C7: when status retrieval fails while the
pid is still in the registry, the monitor does not treat the process
as removed externally and does not leave the registry alone: it takes
the present branch of line 104, removes the pid and classifies the
exit as on its own, only skipping the status classification message. -/
theorem C7_counterexample_failure_still_removes :
    monitorRun 5 (.error "BadResource") true [5] =
      { procs := []
        classification := .exitedOwn
        logs := ["M: monitoring status of process with pid 5",
                 "M: error getting status of process with pid 5",
                 "M: process with pid 5 exited on its own"] } := rfl

/-- Claim C7 as amended: when the await of the termination status
fails, the failure is logged and the error is swallowed (the result
does not depend on the error value and the monitor returns normally);
the monitor then performs the same registry presence check as on
success: if the pid is absent it is treated as killed externally with
no registry action, but if the pid is still present the monitor
removes it and classifies the exit as on its own, skipping only the
classification message. -/
theorem C7_amended_status_failure (pid : Nat) (e e2 : String) (watch : Bool)
    (procs : List Nat) :
    monitorRun pid (.error e) watch procs =
      monitorRun pid (.error e2) watch procs ∧
    monitorRun pid (.error e) watch procs =
      (if pid ∈ procs then
        { procs := procs.erase pid
          classification := .exitedOwn
          logs := [s!"M: monitoring status of process with pid {pid}",
                   s!"M: error getting status of process with pid {pid}",
                   s!"M: process with pid {pid} exited on its own"] }
      else
        { procs := procs
          classification := .killedExternally
          logs := [s!"M: monitoring status of process with pid {pid}",
                   s!"M: error getting status of process with pid {pid}",
                   s!"M: process with pid {pid} was killed"] }) := by
  refine ⟨rfl, ?_⟩
  by_cases hm : pid ∈ procs <;> simp [monitorRun, monitorCont, hm]

/-- Claim C8: when the monitor obtains a termination status and the
pid is still in the registry, it removes that entry and logs the one
message of the four selected by the success flag and options.watch,
the four messages being pairwise distinct; when the pid is absent it
only logs that the process was killed and mutates nothing. -/
theorem C8_monitor_classifies (pid : Nat) (b watch : Bool)
    (procs : List Nat) :
    (pid ∈ procs →
      monitorRun pid (.ok b) watch procs =
        { procs := procs.erase pid
          classification := .exitedOwn
          logs := [s!"M: monitoring status of process with pid {pid}",
                   s!"M: got status of process with pid {pid}",
                   s!"M: process with pid {pid} exited on its own",
                   classLog b watch] }) ∧
    (pid ∉ procs →
      monitorRun pid (.ok b) watch procs =
        { procs := procs
          classification := .killedExternally
          logs := [s!"M: monitoring status of process with pid {pid}",
                   s!"M: got status of process with pid {pid}",
                   s!"M: process with pid {pid} was killed"] }) ∧
    [classLog true true, classLog true false,
     classLog false true, classLog false false].Nodup := by
  refine ⟨?_, ?_, by decide⟩ <;>
    intro hm <;> simp [monitorRun, monitorCont, hm]

theorem C8_monitor_classifies_spot :
    (monitorRun 3 (.ok true) true [3]).procs = [] ∧
    (monitorRun 3 (.ok true) true [3]).classification = .exitedOwn ∧
    (monitorRun 3 (.ok false) false []).classification =
      .killedExternally ∧
    (monitorRun 3 (.ok false) false []).procs = [] := by
  have h1 := (C8_monitor_classifies 3 true true [3]).1 (by decide)
  have h2 := (C8_monitor_classifies 3 false false []).2.1 (by decide)
  rw [h1, h2]
  exact ⟨rfl, rfl, rfl, rfl⟩

/-- Counterexample to claim C9: a Daemon is not single-use. The
generator obtained from a first Symbol.asyncIterator call yields start
then exit and is then exhausted; a second Symbol.asyncIterator call on
the very daemon value the first call returned hands out a fresh
generator whose first event is again start, so a fresh sequence is
obtained without constructing a new Daemon. -/
theorem C9_counterexample_second_iteration :
    ((symbolAsyncIterator { startOpts := fun _ => {}, feed := [] }).2.next).1 =
      some .start ∧
    ((((symbolAsyncIterator { startOpts := fun _ => {}, feed := [] }).2.next).2).next).1 =
      some .exit ∧
    ((((((symbolAsyncIterator { startOpts := fun _ => {}, feed := [] }).2.next).2).next).2).next).1 =
      none ∧
    ((symbolAsyncIterator
        (symbolAsyncIterator { startOpts := fun _ => {}, feed := [] }).1).2.next).1 =
      some .start :=
  ⟨rfl, rfl, rfl, rfl⟩

/-- Claim C9 as amended: each call of Symbol.asyncIterator leaves the
daemon unchanged and returns a fresh generator instance produced by
iterate, positioned at zero, whose event sequence begins with start;
an individual generator instance is single-use in that advancing never
moves backwards and an exhausted instance stays exhausted; but a fresh
start-beginning sequence is obtained from the same Daemon by calling
the iterator again, not only by constructing a new Daemon. -/
theorem C9_amended_fresh_generator_per_call (d : DaemonInput) (g : Gen) :
    (symbolAsyncIterator d).1 = d ∧
    (symbolAsyncIterator d).2 = mkIterate d ∧
    (mkIterate d).pos = 0 ∧
    (iterateEvents d).head? = some .start ∧
    (g.next.1 = none → g.next.2 = g) ∧
    g.pos ≤ g.next.2.pos := by
  refine ⟨rfl, rfl, rfl, ?_, ?_, ?_⟩
  · simp [iterateEvents, iterateRun]
  · intro hnone
    cases hge : g.events[g.pos]? with
    | none => simp [Gen.next, hge]
    | some e => simp [Gen.next, hge] at hnone
  · cases hge : g.events[g.pos]? with
    | none => simp [Gen.next, hge]
    | some e => simp [Gen.next, hge]

theorem C9_amended_fresh_generator_per_call_spot :
    (symbolAsyncIterator
        { startOpts := fun _ => {}, feed := ([] : List ChangeBatch) }).1 =
      { startOpts := fun _ => {}, feed := [] } ∧
    (Gen.next { pos := 2, events := [.start, .exit] }).2 =
      { pos := 2, events := [.start, .exit] } := by
  have h := C9_amended_fresh_generator_per_call
    { startOpts := fun _ => {}, feed := [] }
    { pos := 2, events := [.start, .exit] }
  exact ⟨h.1, h.2.2.2.2.1 rfl⟩

end Denon
